import Mathlib

/-!
Shallow embedding of `src/src/Engine/FormulaEvaluator.ts`, the stack-based
arithmetic formula evaluator of this repository, together with theorems
settling the specification claims about it.

Modelling conventions:
- JavaScript numbers are modelled as exact rationals extended with the IEEE
  special values `Infinity`, `-Infinity` and `NaN` (`JSNum`).  Binary64
  rounding and overflow are not modelled; every claim under scrutiny concerns
  control flow, error strings and small exact values, none of which depend on
  rounding.
- Mutable instance state (`_result`, `_errorMessage`) is threaded explicitly
  as an `EvState` value.
- The JS `throw`/`catch` pair of `evaluate`/`compute` is modelled with
  `Except`; a thrown error carries the evaluator state and the operand stack
  as they were at the moment of the throw, because the catch block of the
  source reads both.
- Stacks are Lean lists whose head is the top of the stack (JS `push`/`pop`
  operate at the array end).
-/

/-- A JavaScript number: NaN, positive/negative infinity, or a finite value
(modelled as an exact rational; binary64 rounding is not modelled). -/
inductive JSNum where
  | nan : JSNum
  | inf : JSNum
  | neginf : JSNum
  | fin : ℚ → JSNum
deriving DecidableEq, Repr

/-- JS unary minus on numbers. -/
def jsNeg : JSNum → JSNum
  | .nan => .nan
  | .inf => .neginf
  | .neginf => .inf
  | .fin q => .fin (-q)

/-- JS `+` on numbers (IEEE special-value rules; exact on finite values). -/
def jsAdd : JSNum → JSNum → JSNum
  | .nan, _ => .nan
  | _, .nan => .nan
  | .inf, .neginf => .nan
  | .neginf, .inf => .nan
  | .inf, _ => .inf
  | _, .inf => .inf
  | .neginf, _ => .neginf
  | _, .neginf => .neginf
  | .fin a, .fin b => .fin (a + b)

/-- JS `-` on numbers, defined as addition of the negation (IEEE-equivalent). -/
def jsSub (a b : JSNum) : JSNum := jsAdd a (jsNeg b)

/-- JS `*` on numbers (IEEE special-value rules; exact on finite values). -/
def jsMul : JSNum → JSNum → JSNum
  | .nan, _ => .nan
  | _, .nan => .nan
  | .inf, .inf => .inf
  | .inf, .neginf => .neginf
  | .neginf, .inf => .neginf
  | .neginf, .neginf => .inf
  | .inf, .fin q => if q = 0 then .nan else if 0 < q then .inf else .neginf
  | .fin q, .inf => if q = 0 then .nan else if 0 < q then .inf else .neginf
  | .neginf, .fin q => if q = 0 then .nan else if 0 < q then .neginf else .inf
  | .fin q, .neginf => if q = 0 then .nan else if 0 < q then .neginf else .inf
  | .fin a, .fin b => .fin (a * b)

/-- JS `/` on numbers (IEEE special-value rules; exact on finite values;
the sign of zero is not modelled). -/
def jsDiv : JSNum → JSNum → JSNum
  | .nan, _ => .nan
  | _, .nan => .nan
  | .inf, .inf => .nan
  | .inf, .neginf => .nan
  | .neginf, .inf => .nan
  | .neginf, .neginf => .nan
  | .inf, .fin q => if 0 ≤ q then .inf else .neginf
  | .neginf, .fin q => if 0 ≤ q then .neginf else .inf
  | .fin _, .inf => .fin 0
  | .fin _, .neginf => .fin 0
  | .fin a, .fin b =>
    if b = 0 then (if a = 0 then .nan else if 0 < a then .inf else .neginf)
    else .fin (a / b)

/-- JS `x || 0` on a number `x`: NaN (and zero) are falsy and give `0`;
every other number is returned unchanged. -/
def jsOrZero : JSNum → JSNum
  | .nan => .fin 0
  | v => v

/-- The characters stripped by JS string-to-number coercion
(StrWhiteSpace: space, tab, LF, VT, FF, CR, NBSP, line/paragraph
separators, BOM). -/
def isJsWS (c : Char) : Bool :=
  c = ' ' || c = '\t' || c = '\n' || c = '\r' ||
  c = Char.ofNat 11 || c = Char.ofNat 12 || c = Char.ofNat 160 ||
  c = Char.ofNat 0x2028 || c = Char.ofNat 0x2029 || c = Char.ofNat 0xFEFF

/-- Strip JS whitespace from both ends of a character list. -/
def jsTrim (cs : List Char) : List Char :=
  ((cs.dropWhile isJsWS).reverse.dropWhile isJsWS).reverse

/-- Value of a decimal digit list (most significant first). -/
def digitsToNat (cs : List Char) : ℕ :=
  cs.foldl (fun a c => 10 * a + (c.toNat - 48)) 0

/-- Value of a digit character in bases up to 16; `99` marks a non-digit. -/
def digValB (c : Char) : ℕ :=
  if c.isDigit then c.toNat - 48
  else if 'a' ≤ c ∧ c ≤ 'f' then c.toNat - 87
  else if 'A' ≤ c ∧ c ≤ 'F' then c.toNat - 55
  else 99

/-- Value of a digit list in radix `b` (most significant first). -/
def digitsToNatB (b : ℕ) (cs : List Char) : ℕ :=
  cs.foldl (fun a c => b * a + digValB c) 0

/-- A `0x`/`0o`/`0b` literal body: all characters must be digits of the
radix, and at least one must be present; otherwise NaN. -/
def radixVal (b : ℕ) (cs : List Char) : JSNum :=
  if cs ≠ [] ∧ cs.all (fun c => digValB c < b) then .fin (digitsToNatB b cs)
  else .nan

/-- Rational value of an unsigned decimal digit string. -/
def natValQ (cs : List Char) : ℚ := (digitsToNat cs : ℚ)

/-- Rational value of `intPart.fracPart`. -/
def decValue (ip fp : List Char) : ℚ :=
  natValQ ip + (digitsToNat fp : ℚ) / (10 : ℚ) ^ fp.length

/-- Exponent digits of a JS numeric string: scale `v` by `10^digits`,
positively or negatively; anything malformed is NaN. -/
def expDigits (v : ℚ) (pos : Bool) (d : List Char) : JSNum :=
  if d ≠ [] ∧ d.all Char.isDigit then
    .fin (if pos then v * (10 : ℚ) ^ digitsToNat d else v / (10 : ℚ) ^ digitsToNat d)
  else .nan

/-- Optional exponent tail (`e`/`E`, optional sign, digits) after the
mantissa of a JS decimal literal; any other trailing text is NaN. -/
def expTail (v : ℚ) : List Char → JSNum
  | [] => .fin v
  | e :: r =>
    if e = 'e' ∨ e = 'E' then
      match r with
      | '+' :: d => expDigits v true d
      | '-' :: d => expDigits v false d
      | d => expDigits v true d
    else .nan

/-- Unsigned decimal part of JS string-to-number: digits, optional `.` and
fraction digits, optional exponent; the whole remaining text must be
consumed, else NaN. -/
def decimalVal (cs : List Char) : JSNum :=
  let ip := cs.takeWhile Char.isDigit
  let r1 := cs.dropWhile Char.isDigit
  match r1 with
  | '.' :: r2 =>
    let fp := r2.takeWhile Char.isDigit
    let r3 := r2.dropWhile Char.isDigit
    if ip = [] ∧ fp = [] then .nan else expTail (decValue ip fp) r3
  | _ => if ip = [] then .nan else expTail (natValQ ip) r1

/-- Unsigned StrDecimalLiteral: `Infinity` or a decimal literal. -/
def unsignedDec (cs : List Char) : JSNum :=
  if cs = "Infinity".toList then .inf else decimalVal cs

/-- Signed StrDecimalLiteral: optional sign, then the unsigned form. -/
def signedDec : List Char → JSNum
  | [] => unsignedDec []
  | c :: r =>
    if c = '+' then unsignedDec r
    else if c = '-' then jsNeg (unsignedDec r)
    else unsignedDec (c :: r)

/-- Trimmed JS numeric string: empty means `0`, a `0x`/`0o`/`0b` literal
(which admits no sign), or a signed decimal literal. -/
def strNum : List Char → JSNum
  | [] => .fin 0
  | c0 :: x :: rest =>
    if c0 = '0' then
      if x = 'x' ∨ x = 'X' then radixVal 16 rest
      else if x = 'o' ∨ x = 'O' then radixVal 8 rest
      else if x = 'b' ∨ x = 'B' then radixVal 2 rest
      else signedDec (c0 :: x :: rest)
    else signedDec (c0 :: x :: rest)
  | cs => signedDec cs

/-- Strip one optional leading `+`/`-` sign. -/
def stripSign (cs : List Char) : List Char :=
  match cs with
  | [] => []
  | c :: r => if c = '+' ∨ c = '-' then r else c :: r

/-- Refinement definition following the claim's words, not the source: a
finite decimal numeric literal is an optional sign, one or more digits, and
optionally a decimal point followed by further digits. -/
def specNumericLiteral (s : String) : Bool :=
  let cs := stripSign s.toList
  let ip := cs.takeWhile Char.isDigit
  let r := cs.dropWhile Char.isDigit
  ip ≠ [] && (r = [] || (r.head? = some '.' && r.tail.all Char.isDigit))

/-- ECMAScript `Number(string)` (ToNumber on strings): trim whitespace,
empty means `0`, otherwise parse a StrNumericLiteral; unparsable text
yields `JSNum.nan`. -/
def jsStrToNum (s : String) : JSNum := strNum (jsTrim s.toList)

/-- Modelled from the spec: the error strings of `ErrorMessages` live in
`src/Engine/GlobalDefinitions.ts`, which is not under `src/`; the spec
(§7, §8) gives the exact strings. -/
def ErrorMessages.emptyFormula : String := "empty formula"

/-- Modelled from the spec (see `ErrorMessages.emptyFormula`). -/
def ErrorMessages.invalidFormula : String := "invalid formula"

/-- Modelled from the spec (see `ErrorMessages.emptyFormula`). -/
def ErrorMessages.invalidCell : String := "invalid cell"

/-- Modelled from the spec (see `ErrorMessages.emptyFormula`). -/
def ErrorMessages.invalidOperator : String := "invalid operator"

/-- Modelled from the spec (see `ErrorMessages.emptyFormula`). -/
def ErrorMessages.missingParentheses : String := "missing parentheses"

/-- Modelled from the spec (see `ErrorMessages.emptyFormula`). -/
def ErrorMessages.divideByZero : String := "divide by zero"

/-- Modelled from the spec (§6): a cell of the external cell-storage
collaborator exposes its formula tokens, its error string and its numeric
value. `src/Engine/Cell.ts` is not under `src/`. -/
structure Cell where
  getFormula : List String
  getError : String
  getValue : JSNum
deriving DecidableEq

/-- Modelled from the spec (§6): the cell-storage collaborator
(`src/Engine/SheetMemory.ts`, not under `src/`) exposes label validity and
label-to-cell lookup. -/
structure SheetMemory where
  isValidCellLabel : String → Bool
  getCellByLabel : String → Cell

/-- Modelled from the spec (§4.1): `Cell.isValidCellLabel` (class `Cell` is
not under `src/`) accepts one or more letters followed by one or more
digits. -/
def specIsValidCellLabel (s : String) : Bool :=
  let ls := s.toList.takeWhile Char.isAlpha
  let rest := s.toList.dropWhile Char.isAlpha
  ls ≠ [] && rest ≠ [] && rest.all Char.isDigit

/-- The two observable instance fields of the evaluator:
`_result` and `_errorMessage`. -/
structure EvState where
  result : JSNum
  errorMessage : String
deriving DecidableEq, Repr

/-- `FormulaEvaluator.isNumber`: `!isNaN(Number(token))`. -/
def isNumber (token : String) : Bool :=
  match jsStrToNum token with
  | .nan => false
  | _ => true

/-- `FormulaEvaluator.isCellReference`: delegates to `Cell.isValidCellLabel`
(modelled from the spec as `specIsValidCellLabel`). -/
def isCellReference (token : String) : Bool := specIsValidCellLabel token

/-- `FormulaEvaluator.getCellValue`: resolve a cell-reference token to a
value/error pair through the cell-storage collaborator. -/
def getCellValue (mem : SheetMemory) (token : String) : JSNum × String :=
  if ¬ mem.isValidCellLabel token then (.fin 0, ErrorMessages.invalidCell)
  else
    let cell := mem.getCellByLabel token
    let formula := cell.getFormula
    let error := cell.getError
    if error ≠ "" ∧ error ≠ ErrorMessages.emptyFormula then (.fin 0, error)
    else if formula.length = 0 then (.fin 0, ErrorMessages.invalidCell)
    else (cell.getValue, "")

/-- `FormulaEvaluator.precedence`: `+`,`-` map to 1, `*`,`/` to 2, and any
other string to 0 (`precedenceMap[op] || 0`). -/
def precedence (op : String) : ℕ :=
  match op with
  | "+" => 1
  | "-" => 1
  | "*" => 2
  | "/" => 2
  | _ => 0

/-- `FormulaEvaluator.compute`: pop one operator, require two operands
(else throw without touching the recorded message), pop `b` then `a`
(JS `pop() || 0` turns NaN into 0), apply the operator.  A zero divisor
records "divide by zero" with result `Infinity` and throws; an unknown
operator records "invalid operator" and throws.  A thrown error carries the
state and the operand stack as mutated so far.  JS `pop()` on an empty
operator stack yields `undefined`, which falls into the `switch` default;
`headD ""` plays that role here (`""` is not one of the four operators). -/
def compute (st : EvState) (operands : List JSNum) (ops : List String) :
    Except (EvState × List JSNum) (EvState × List JSNum × List String) :=
  let op := ops.headD ""
  let ops1 := ops.tail
  match operands with
  | b0 :: a0 :: rest =>
    let b := jsOrZero b0
    let a := jsOrZero a0
    if op = "+" then .ok (st, jsAdd a b :: rest, ops1)
    else if op = "-" then .ok (st, jsSub a b :: rest, ops1)
    else if op = "*" then .ok (st, jsMul a b :: rest, ops1)
    else if op = "/" then
      if b = JSNum.fin 0 then
        .error (⟨JSNum.inf, ErrorMessages.divideByZero⟩, rest)
      else .ok (st, jsDiv a b :: rest, ops1)
    else .error ({ st with errorMessage := ErrorMessages.invalidOperator }, rest)
  | _ => .error (st, operands)

/-- The close-paren loop of `evaluate`: pop-and-apply while the operator
stack is non-empty and its top is not `"("`. -/
def closeLoop (st : EvState) (operands : List JSNum) :
    List String → Except (EvState × List JSNum) (EvState × List JSNum × List String)
  | [] => .ok (st, operands, [])
  | op :: rest =>
    if op = "(" then .ok (st, operands, op :: rest)
    else
      match compute st operands (op :: rest) with
      | .error e => .error e
      | .ok (st1, operands1, _) => closeLoop st1 operands1 rest

/-- The operator loop of `evaluate`: pop-and-apply while the operator stack
is non-empty and its top has precedence at least that of the incoming
token. -/
def opLoop (token : String) (st : EvState) (operands : List JSNum) :
    List String → Except (EvState × List JSNum) (EvState × List JSNum × List String)
  | [] => .ok (st, operands, [])
  | op :: rest =>
    if precedence token ≤ precedence op then
      match compute st operands (op :: rest) with
      | .error e => .error e
      | .ok (st1, operands1, _) => opLoop token st1 operands1 rest
    else .ok (st, operands, op :: rest)

/-- Outcome of the token scan of `evaluate`: normal completion with final
state and stacks, an early `return` (cell-resolution error), or a thrown
error (carrying state and operand stack at the throw). -/
inductive ScanOut where
  | ok : EvState → List JSNum → List String → ScanOut
  | ret : EvState → ScanOut
  | exc : EvState → List JSNum → ScanOut
deriving DecidableEq

/-- The main token loop of `evaluate`: numbers and resolved cell values are
pushed on the operand stack, `"("` on the operator stack, `")"` triggers the
close-paren loop followed by discarding the `"("`, and any other token is
treated as an operator via `opLoop` and then pushed. -/
def scanLoop (mem : SheetMemory) (st : EvState) (operands : List JSNum)
    (ops : List String) : List String → ScanOut
  | [] => .ok st operands ops
  | token :: rest =>
    if isNumber token then
      scanLoop mem st (jsStrToNum token :: operands) ops rest
    else if isCellReference token then
      let vr := getCellValue mem token
      if vr.2 ≠ "" then .ret { st with errorMessage := vr.2 }
      else scanLoop mem st (vr.1 :: operands) ops rest
    else if token = "(" then
      scanLoop mem st operands (token :: ops) rest
    else if token = ")" then
      match closeLoop st operands ops with
      | .error (st1, operands1) => .exc st1 operands1
      | .ok (st1, operands1, ops1) => scanLoop mem st1 operands1 ops1.tail rest
    else
      match opLoop token st operands ops with
      | .error (st1, operands1) => .exc st1 operands1
      | .ok (st1, operands1, ops1) => scanLoop mem st1 operands1 (token :: ops1) rest

/-- The drain loop of `evaluate`: while operators remain, record
"missing parentheses" whenever the top is `"("`, then pop-and-apply. -/
def drainLoop (st : EvState) (operands : List JSNum) :
    List String → Except (EvState × List JSNum) (EvState × List JSNum)
  | [] => .ok (st, operands)
  | op :: rest =>
    let st1 := if op = "(" then { st with errorMessage := ErrorMessages.missingParentheses } else st
    match compute st1 operands (op :: rest) with
    | .error e => .error e
    | .ok (st2, operands2, _) => drainLoop st2 operands2 rest

/-- Outcome of the whole `try` block of the multi-token path of `evaluate`. -/
inductive TryOut where
  | ok : EvState → List JSNum → TryOut
  | ret : EvState → TryOut
  | exc : EvState → List JSNum → TryOut
deriving DecidableEq

/-- The `try` block of the multi-token path of `evaluate`: scan all tokens,
drain remaining operators, then require exactly one operand (recording
"invalid formula" and throwing otherwise). -/
def tryPhase (mem : SheetMemory) (st : EvState) (formula : List String) : TryOut :=
  match scanLoop mem st [] [] formula with
  | .ret st1 => .ret st1
  | .exc st1 operands1 => .exc st1 operands1
  | .ok st1 operands1 ops1 =>
    match drainLoop st1 operands1 ops1 with
    | .error (st2, operands2) => .exc st2 operands2
    | .ok (st2, operands2) =>
      if operands2.length = 1 then .ok st2 operands2
      else .exc { st2 with errorMessage := ErrorMessages.invalidFormula } operands2

/-- The `catch` block of `evaluate`: default the message to
"invalid formula" when none is set, and if exactly one operand remains, use
it as the result (best-effort salvage, `operandsStack[0]` without `|| 0`). -/
def catchSalvage (st : EvState) (operands : List JSNum) : EvState :=
  let st1 :=
    if st.errorMessage = "" then { st with errorMessage := ErrorMessages.invalidFormula }
    else st
  match operands with
  | [v] => { st1 with result := v }
  | _ => st1

/-- `FormulaEvaluator.evaluate`: reset both instance fields, handle the
empty and single-token shortcuts, otherwise run the scan/drain/final-check
`try` block and the salvaging `catch`. -/
def evaluate (st : EvState) (mem : SheetMemory) (formula : List String) : EvState :=
  let st0 : EvState := { st with result := JSNum.fin 0, errorMessage := "" }
  if formula.length = 0 then { st0 with errorMessage := ErrorMessages.emptyFormula }
  else if formula.length = 1 then
    let token := formula.headD ""
    if isNumber token then { st0 with result := jsStrToNum token }
    else if isCellReference token then
      let vr := getCellValue mem token
      if vr.2 ≠ "" then { st0 with errorMessage := vr.2 }
      else { st0 with result := vr.1 }
    else { st0 with errorMessage := ErrorMessages.invalidFormula }
  else
    match tryPhase mem st0 formula with
    | .ret st1 => st1
    | .exc st1 operands1 => catchSalvage st1 operands1
    | .ok st1 operands1 => { st1 with result := jsOrZero (operands1.headD (JSNum.fin 0)) }

/-- A cell storage with no valid labels, for concrete evaluations of
formulas that contain no cell references. -/
def emptyMem : SheetMemory :=
  { isValidCellLabel := fun _ => false
    getCellByLabel := fun _ => ⟨[], "", JSNum.fin 0⟩ }

/-- A cell storage in which every label is valid and every cell carries a
stored "divide by zero" error with an empty formula. -/
def memCellError : SheetMemory :=
  { isValidCellLabel := fun _ => true
    getCellByLabel := fun _ => ⟨[], "divide by zero", JSNum.fin 7⟩ }

/-- A cell storage in which every label is valid and every cell carries the
"empty formula" sentinel error and an empty formula. -/
def memEmptyCell : SheetMemory :=
  { isValidCellLabel := fun _ => true
    getCellByLabel := fun _ => ⟨[], "empty formula", JSNum.fin 7⟩ }

/-- A cell storage whose only valid label is "A1", whose cell carries a
stored "divide by zero" error. -/
def memA1 : SheetMemory :=
  { isValidCellLabel := fun l => l == "A1"
    getCellByLabel := fun _ => ⟨["1", "/", "0"], "divide by zero", JSNum.fin 0⟩ }

/-- States in which a recorded "divide by zero" message implies the recorded
result is already `Infinity`.  `compute` establishes this at the
divide-by-zero throw and no abort path disturbs it. -/
def divInvariant (st : EvState) : Prop :=
  st.errorMessage = ErrorMessages.divideByZero → st.result = JSNum.inf

/-! ### Helper lemmas about `compute` and the stack loops -/

lemma divInvariant_start : divInvariant ⟨JSNum.fin 0, ""⟩ := by
  intro h
  simp [ErrorMessages.divideByZero] at h

lemma divInvariant_msg {st : EvState} (m : String)
    (hm : m ≠ ErrorMessages.divideByZero) :
    divInvariant { st with errorMessage := m } := by
  intro h
  exact absurd h hm

lemma compute_ok_state {st st' : EvState} {ds ds' : List JSNum}
    {ops ops' : List String}
    (h : compute st ds ops = .ok (st', ds', ops')) : st' = st := by
  rcases ds with _ | ⟨b0, _ | ⟨a0, rest⟩⟩ <;> simp only [compute] at h
  · simp at h
  · simp at h
  · repeat' split at h
    all_goals simp_all

lemma compute_error_cases {st st' : EvState} {ds ds' : List JSNum}
    {ops : List String}
    (h : compute st ds ops = .error (st', ds')) :
    st' = st ∨ st' = ⟨JSNum.inf, ErrorMessages.divideByZero⟩ ∨
      st' = { st with errorMessage := ErrorMessages.invalidOperator } := by
  rcases ds with _ | ⟨b0, _ | ⟨a0, rest⟩⟩ <;> simp only [compute] at h
  · simp at h; tauto
  · simp at h; tauto
  · repeat' split at h
    all_goals simp_all

lemma compute_error_div {st st' : EvState} {ds ds' : List JSNum}
    {ops : List String}
    (h : compute st ds ops = .error (st', ds')) (hi : divInvariant st) :
    divInvariant st' := by
  rcases compute_error_cases h with rfl | rfl | rfl
  · exact hi
  · intro _; rfl
  · intro hmsg
    simp [ErrorMessages.invalidOperator, ErrorMessages.divideByZero] at hmsg

lemma compute_paren_no_ok {st : EvState} {ds : List JSNum}
    {rest : List String} {r : EvState × List JSNum × List String}
    (h : compute st ds ("(" :: rest) = .ok r) : False := by
  rcases ds with _ | ⟨b0, _ | ⟨a0, ds⟩⟩ <;> simp [compute] at h

lemma closeLoop_ok_state {st st1 : EvState} {ds ds1 : List JSNum}
    {ops ops1 : List String}
    (h : closeLoop st ds ops = .ok (st1, ds1, ops1)) : st1 = st := by
  induction ops generalizing st ds with
  | nil =>
    simp only [closeLoop] at h
    simp at h
    exact h.1.symm
  | cons op rest ih =>
    simp only [closeLoop] at h
    split at h
    · simp at h
      exact h.1.symm
    · cases hc : compute st ds (op :: rest) with
      | error e =>
        rw [hc] at h
        simp at h
      | ok o =>
        obtain ⟨st2, ds2, ops2⟩ := o
        rw [hc] at h
        exact (ih h).trans (compute_ok_state hc)

lemma closeLoop_error_div {st st1 : EvState} {ds ds1 : List JSNum}
    {ops : List String}
    (h : closeLoop st ds ops = .error (st1, ds1)) (hi : divInvariant st) :
    divInvariant st1 := by
  induction ops generalizing st ds with
  | nil => simp [closeLoop] at h
  | cons op rest ih =>
    simp only [closeLoop] at h
    split at h
    · simp at h
    · cases hc : compute st ds (op :: rest) with
      | error e =>
        obtain ⟨st2, ds2⟩ := e
        rw [hc] at h
        simp at h
        rcases h with ⟨rfl, rfl⟩
        exact compute_error_div hc hi
      | ok o =>
        obtain ⟨st2, ds2, ops2⟩ := o
        rw [hc] at h
        exact ih h (by rw [compute_ok_state hc]; exact hi)

lemma opLoop_ok_state {token : String} {st st1 : EvState} {ds ds1 : List JSNum}
    {ops ops1 : List String}
    (h : opLoop token st ds ops = .ok (st1, ds1, ops1)) : st1 = st := by
  induction ops generalizing st ds with
  | nil =>
    simp only [opLoop] at h
    simp at h
    exact h.1.symm
  | cons op rest ih =>
    simp only [opLoop] at h
    split at h
    · cases hc : compute st ds (op :: rest) with
      | error e =>
        rw [hc] at h
        simp at h
      | ok o =>
        obtain ⟨st2, ds2, ops2⟩ := o
        rw [hc] at h
        exact (ih h).trans (compute_ok_state hc)
    · simp at h
      exact h.1.symm

lemma opLoop_error_div {token : String} {st st1 : EvState} {ds ds1 : List JSNum}
    {ops : List String}
    (h : opLoop token st ds ops = .error (st1, ds1)) (hi : divInvariant st) :
    divInvariant st1 := by
  induction ops generalizing st ds with
  | nil => simp [opLoop] at h
  | cons op rest ih =>
    simp only [opLoop] at h
    split at h
    · cases hc : compute st ds (op :: rest) with
      | error e =>
        obtain ⟨st2, ds2⟩ := e
        rw [hc] at h
        simp at h
        rcases h with ⟨rfl, rfl⟩
        exact compute_error_div hc hi
      | ok o =>
        obtain ⟨st2, ds2, ops2⟩ := o
        rw [hc] at h
        exact ih h (by rw [compute_ok_state hc]; exact hi)
    · simp at h

lemma drainLoop_ok_state {st st1 : EvState} {ds ds1 : List JSNum}
    {ops : List String}
    (h : drainLoop st ds ops = .ok (st1, ds1)) : st1 = st := by
  induction ops generalizing st ds with
  | nil =>
    simp only [drainLoop] at h
    simp at h
    exact h.1.symm
  | cons op rest ih =>
    simp only [drainLoop] at h
    by_cases hp : op = "("
    · rw [if_pos hp] at h
      subst hp
      cases hc : compute { st with errorMessage := ErrorMessages.missingParentheses } ds
          ("(" :: rest) with
      | error e =>
        rw [hc] at h
        simp at h
      | ok o =>
        exact absurd hc (fun hc => compute_paren_no_ok hc)
    · rw [if_neg hp] at h
      cases hc : compute st ds (op :: rest) with
      | error e =>
        rw [hc] at h
        simp at h
      | ok o =>
        obtain ⟨st2, ds2, ops2⟩ := o
        rw [hc] at h
        exact (ih h).trans (compute_ok_state hc)

lemma drainLoop_error_div {st st1 : EvState} {ds ds1 : List JSNum}
    {ops : List String}
    (h : drainLoop st ds ops = .error (st1, ds1)) (hi : divInvariant st) :
    divInvariant st1 := by
  induction ops generalizing st ds with
  | nil => simp [drainLoop] at h
  | cons op rest ih =>
    simp only [drainLoop] at h
    have hi1 : divInvariant
        (if op = "(" then { st with errorMessage := ErrorMessages.missingParentheses } else st) := by
      split
      · exact divInvariant_msg _ (by simp [ErrorMessages.missingParentheses, ErrorMessages.divideByZero])
      · exact hi
    cases hc : compute
        (if op = "(" then { st with errorMessage := ErrorMessages.missingParentheses } else st)
        ds (op :: rest) with
    | error e =>
      obtain ⟨st2, ds2⟩ := e
      rw [hc] at h
      simp at h
      rcases h with ⟨rfl, rfl⟩
      exact compute_error_div hc hi1
    | ok o =>
      obtain ⟨st2, ds2, ops2⟩ := o
      rw [hc] at h
      exact ih h (by rw [compute_ok_state hc]; exact hi1)

lemma scanLoop_ok_state {mem : SheetMemory} {st st1 : EvState}
    {ds ds1 : List JSNum} {ops ops1 : List String} {toks : List String}
    (h : scanLoop mem st ds ops toks = .ok st1 ds1 ops1) : st1 = st := by
  induction toks generalizing st ds ops with
  | nil =>
    simp only [scanLoop] at h
    cases h
    rfl
  | cons token rest ih =>
    simp only [scanLoop] at h
    split at h
    · exact ih h
    · split at h
      · split at h
        · exact ScanOut.noConfusion h
        · exact ih h
      · split at h
        · exact ih h
        · split at h
          · cases hc : closeLoop st ds ops with
            | error e =>
              obtain ⟨st2, ds2⟩ := e
              rw [hc] at h
              exact ScanOut.noConfusion h
            | ok o =>
              obtain ⟨st2, ds2, ops2⟩ := o
              rw [hc] at h
              exact (ih h).trans (closeLoop_ok_state hc)
          · cases hc : opLoop token st ds ops with
            | error e =>
              obtain ⟨st2, ds2⟩ := e
              rw [hc] at h
              exact ScanOut.noConfusion h
            | ok o =>
              obtain ⟨st2, ds2, ops2⟩ := o
              rw [hc] at h
              exact (ih h).trans (opLoop_ok_state hc)

lemma scanLoop_exc_div {mem : SheetMemory} {st st1 : EvState}
    {ds ds1 : List JSNum} {ops : List String} {toks : List String}
    (h : scanLoop mem st ds ops toks = .exc st1 ds1) (hi : divInvariant st) :
    divInvariant st1 := by
  induction toks generalizing st ds ops with
  | nil => exact ScanOut.noConfusion h
  | cons token rest ih =>
    simp only [scanLoop] at h
    split at h
    · exact ih h hi
    · split at h
      · split at h
        · exact ScanOut.noConfusion h
        · exact ih h hi
      · split at h
        · exact ih h hi
        · split at h
          · cases hc : closeLoop st ds ops with
            | error e =>
              obtain ⟨st2, ds2⟩ := e
              rw [hc] at h
              cases h
              exact closeLoop_error_div hc hi
            | ok o =>
              obtain ⟨st2, ds2, ops2⟩ := o
              rw [hc] at h
              exact ih h (by rw [closeLoop_ok_state hc]; exact hi)
          · cases hc : opLoop token st ds ops with
            | error e =>
              obtain ⟨st2, ds2⟩ := e
              rw [hc] at h
              cases h
              exact opLoop_error_div hc hi
            | ok o =>
              obtain ⟨st2, ds2, ops2⟩ := o
              rw [hc] at h
              exact ih h (by rw [opLoop_ok_state hc]; exact hi)

lemma scanLoop_append {mem : SheetMemory} {st : EvState} {ds : List JSNum}
    {ops : List String} (xs ys : List String) :
    scanLoop mem st ds ops (xs ++ ys) =
      match scanLoop mem st ds ops xs with
      | .ok st1 ds1 ops1 => scanLoop mem st1 ds1 ops1 ys
      | .ret st1 => .ret st1
      | .exc st1 ds1 => .exc st1 ds1 := by
  induction xs generalizing st ds ops with
  | nil => simp [scanLoop]
  | cons token rest ih =>
    simp only [List.cons_append, scanLoop]
    split
    · apply ih
    · split
      · split
        · rfl
        · apply ih
      · split
        · apply ih
        · split
          · cases hc : closeLoop st ds ops with
            | error e =>
              obtain ⟨st2, ds2⟩ := e
              rfl
            | ok o =>
              obtain ⟨st2, ds2, ops2⟩ := o
              apply ih
          · cases hc : opLoop token st ds ops with
            | error e =>
              obtain ⟨st2, ds2⟩ := e
              rfl
            | ok o =>
              obtain ⟨st2, ds2, ops2⟩ := o
              apply ih

lemma tryPhase_exc_div {mem : SheetMemory} {st1 : EvState}
    {ds1 : List JSNum} {f : List String}
    (h : tryPhase mem ⟨JSNum.fin 0, ""⟩ f = .exc st1 ds1) :
    divInvariant st1 := by
  unfold tryPhase at h
  split at h
  · exact TryOut.noConfusion h
  · next st2 ds2 heq =>
    cases h
    exact scanLoop_exc_div heq divInvariant_start
  · next st2 ds2 ops2 heq =>
    have hst2 : st2 = ⟨JSNum.fin 0, ""⟩ := scanLoop_ok_state heq
    split at h
    · next st3 ds3 hd =>
      cases h
      exact drainLoop_error_div hd (by rw [hst2]; exact divInvariant_start)
    · next st3 ds3 hd =>
      split at h
      · exact TryOut.noConfusion h
      · cases h
        exact divInvariant_msg _
          (by simp [ErrorMessages.invalidFormula, ErrorMessages.divideByZero])

/-- The multi-token path of `evaluate`, spelled through `tryPhase`. -/
lemma evaluate_multi {stIn : EvState} {mem : SheetMemory} {f : List String}
    (h2 : 2 ≤ f.length) :
    evaluate stIn mem f =
      match tryPhase mem ⟨JSNum.fin 0, ""⟩ f with
      | .ret st1 => st1
      | .exc st1 ds1 => catchSalvage st1 ds1
      | .ok st1 ds1 => { st1 with result := jsOrZero (ds1.headD (JSNum.fin 0)) } := by
  unfold evaluate
  rw [if_neg (by omega), if_neg (by omega)]

lemma tryPhase_final_exc {mem : SheetMemory} {st1 st2 : EvState}
    {ds1 ds2 : List JSNum} {ops1 : List String} {f : List String}
    (hs : scanLoop mem ⟨JSNum.fin 0, ""⟩ [] [] f = .ok st1 ds1 ops1)
    (hd : drainLoop st1 ds1 ops1 = .ok (st2, ds2))
    (hlen : ds2.length ≠ 1) :
    tryPhase mem ⟨JSNum.fin 0, ""⟩ f =
      .exc { st2 with errorMessage := ErrorMessages.invalidFormula } ds2 := by
  unfold tryPhase
  simp only [hs, hd]
  rw [if_neg hlen]

/-! ### Claim theorems -/

/-- C1 counterexample: the claim says the result accessor equals positive
infinity after a divide-by-zero even when exactly one value remains on the
operand stack at abort time.  On `["1","+","2","/","0"]` the divide-by-zero
throw leaves exactly the value `1` on the operand stack, and the catch-block
salvage overwrites the recorded `Infinity` with it: the result is `1`, not
infinity (the error accessor does read "divide by zero"). -/
theorem c1_divide_by_zero_counterexample :
    evaluate ⟨JSNum.fin 0, ""⟩ emptyMem ["1", "+", "2", "/", "0"] =
        ⟨JSNum.fin 1, "divide by zero"⟩ ∧
      JSNum.fin 1 ≠ JSNum.inf := by
  constructor
  · with_unfolding_all decide
  · decide

/-- C1 (amended): whenever a multi-token evaluation aborts with the
"divide by zero" message, the error accessor reads "divide by zero" and the
result accessor is positive infinity **unless** exactly one value remains on
the operand stack at abort time, in which case the best-effort salvage
overwrites infinity with that value. -/
theorem c1_divide_by_zero_amended {mem : SheetMemory} {stIn st1 : EvState}
    {ds1 : List JSNum} {f : List String}
    (h2 : 2 ≤ f.length)
    (hexc : tryPhase mem ⟨JSNum.fin 0, ""⟩ f = .exc st1 ds1)
    (hdz : st1.errorMessage = ErrorMessages.divideByZero) :
    evaluate stIn mem f =
      ⟨match ds1 with
        | [v] => v
        | _ => JSNum.inf, ErrorMessages.divideByZero⟩ := by
  have hres : st1.result = JSNum.inf := tryPhase_exc_div hexc hdz
  have he : evaluate stIn mem f = catchSalvage st1 ds1 := by
    rw [evaluate_multi h2]
    simp only [hexc]
  rw [he]
  simp only [catchSalvage]
  have hne : ¬ st1.errorMessage = "" := by
    rw [hdz]; simp [ErrorMessages.divideByZero]
  rcases ds1 with _ | ⟨v, _ | ⟨w, t⟩⟩ <;>
    · cases st1
      simp_all [ErrorMessages.divideByZero]

/-- C1 witness for the amended claim, at the spec's own example
`["5","/","0"]`: no operand remains at abort time, so the recorded result is
infinity with error "divide by zero". -/
theorem c1_divide_by_zero_amended_witness :
    evaluate ⟨JSNum.fin 0, ""⟩ emptyMem ["5", "/", "0"] =
      ⟨JSNum.inf, ErrorMessages.divideByZero⟩ := by
  exact @c1_divide_by_zero_amended emptyMem ⟨JSNum.fin 0, ""⟩
    ⟨JSNum.inf, ErrorMessages.divideByZero⟩ []
    ["5", "/", "0"] (by decide) (by with_unfolding_all decide) rfl

/-- C2 counterexample: on `["(","1","2"]` the drain phase finds `"("` on top
of the operator stack (the scan ends with operand stack `[2, 1]` and
operator stack `["("]`), yet the final error accessor reads
"invalid operator", not "missing parentheses": the subsequent `compute` on
the open-paren finds two operands and its default branch overwrites the
message before throwing. -/
theorem c2_missing_parentheses_counterexample :
    scanLoop emptyMem ⟨JSNum.fin 0, ""⟩ [] [] ["(", "1", "2"] =
        .ok ⟨JSNum.fin 0, ""⟩ [JSNum.fin 2, JSNum.fin 1] ["("] ∧
      (evaluate ⟨JSNum.fin 0, ""⟩ emptyMem ["(", "1", "2"]).errorMessage =
          ErrorMessages.invalidOperator ∧
      ErrorMessages.invalidOperator ≠ ErrorMessages.missingParentheses := by
  refine ⟨?_, ?_, ?_⟩ <;> with_unfolding_all decide

/-- C2 (amended): evaluation of an unmatched-open-paren formula terminates
(the embedding is a total function, mirroring that each loop iteration pops
one operator); `evaluate(["(","1","+","2"])` ends with error
"missing parentheses" (and salvaged result 3); and in general, when the
drain phase meets `"("` with fewer than two operands left, it records
"missing parentheses" and aborts with that message preserved.  When two or
more operands remain, `compute`'s default branch overwrites the message with
"invalid operator" (see the counterexample). -/
theorem c2_missing_parentheses_amended :
    (∀ (mem : SheetMemory) (stIn : EvState),
        evaluate stIn mem ["(", "1", "+", "2"] =
          ⟨JSNum.fin 3, ErrorMessages.missingParentheses⟩) ∧
      (∀ (st : EvState) (ds : List JSNum) (rest : List String),
        ds.length < 2 →
          drainLoop st ds ("(" :: rest) =
            .error ({ st with errorMessage := ErrorMessages.missingParentheses }, ds)) := by
  constructor
  · intro mem stIn
    with_unfolding_all rfl
  · intro st ds rest hlen
    rcases ds with _ | ⟨b0, _ | ⟨a0, t⟩⟩
    · simp [drainLoop, compute]
    · simp [drainLoop, compute]
    · simp at hlen
      omega

/-- C2 witness: the amended claim applied to the spec's example and to a
concrete drain state. -/
theorem c2_missing_parentheses_amended_witness :
    evaluate ⟨JSNum.fin 0, ""⟩ emptyMem ["(", "1", "+", "2"] =
        ⟨JSNum.fin 3, ErrorMessages.missingParentheses⟩ ∧
      drainLoop ⟨JSNum.fin 0, ""⟩ [JSNum.fin 3] ["("] =
        .error (⟨JSNum.fin 0, ErrorMessages.missingParentheses⟩, [JSNum.fin 3]) := by
  exact ⟨c2_missing_parentheses_amended.1 emptyMem ⟨JSNum.fin 0, ""⟩,
    c2_missing_parentheses_amended.2 ⟨JSNum.fin 0, ""⟩ [JSNum.fin 3] [] (by decide)⟩

/-- C3: for every multi-token formula whose evaluation aborts with a thrown
failure (scanning, computing, or the final check) — divide-by-zero aside —
if the operand stack holds exactly one value at catch time, the result
accessor equals that value while the error accessor is simultaneously
non-empty, defaulting to "invalid formula" when no message was set. -/
theorem c3_best_effort_salvage {mem : SheetMemory} {stIn st1 : EvState}
    {f : List String} {v : JSNum}
    (h2 : 2 ≤ f.length)
    (hexc : tryPhase mem ⟨JSNum.fin 0, ""⟩ f = .exc st1 [v])
    (_hnd : st1.errorMessage ≠ ErrorMessages.divideByZero) :
    (evaluate stIn mem f).result = v ∧
      (evaluate stIn mem f).errorMessage ≠ "" ∧
      (st1.errorMessage = "" →
        (evaluate stIn mem f).errorMessage = ErrorMessages.invalidFormula) := by
  have he : evaluate stIn mem f = catchSalvage st1 [v] := by
    rw [evaluate_multi h2]
    simp only [hexc]
  have hcv : catchSalvage st1 [v] =
      ⟨v, if st1.errorMessage = "" then ErrorMessages.invalidFormula
          else st1.errorMessage⟩ := by
    simp only [catchSalvage]
    split <;> rfl
  rw [he, hcv]
  by_cases hmsg : st1.errorMessage = ""
  · rw [if_pos hmsg]
    exact ⟨rfl, by simp [ErrorMessages.invalidFormula], fun _ => rfl⟩
  · rw [if_neg hmsg]
    exact ⟨rfl, hmsg, fun hc => absurd hc hmsg⟩

/-- C3 witness: `["(","1","+","2"]` aborts inside the drain with one operand
(the value 3) on the stack; the result accessor reads 3 while the error
accessor is non-empty. -/
theorem c3_best_effort_salvage_witness :
    (evaluate ⟨JSNum.fin 0, ""⟩ emptyMem ["(", "1", "+", "2"]).result = JSNum.fin 3 ∧
      (evaluate ⟨JSNum.fin 0, ""⟩ emptyMem ["(", "1", "+", "2"]).errorMessage ≠ "" := by
  have h := @c3_best_effort_salvage emptyMem ⟨JSNum.fin 0, ""⟩
    ⟨JSNum.fin 0, ErrorMessages.missingParentheses⟩
    ["(", "1", "+", "2"] (JSNum.fin 3)
    (by decide) (by with_unfolding_all decide) (by decide)
  exact ⟨h.1, h.2.1⟩

/-- C4 counterexample: the claim says every unmatched close-paren leaves a
non-empty error.  On `["1",")"]` the close-paren loop finds the operator
stack empty, silently pops nothing, and evaluation succeeds with result 1
and an empty error string. -/
theorem c4_unmatched_close_paren_counterexample :
    (evaluate ⟨JSNum.fin 0, ""⟩ emptyMem ["1", ")"]).errorMessage = "" := by
  with_unfolding_all decide

/-- C4 (amended): an unmatched close-paren is not itself detected —
`["1",")"]` evaluates silently to result 1 with empty error.  The trailing
cleanup reports "invalid formula" only when the operand stack does not end
with exactly one value after the scan and drain complete normally. -/
theorem c4_unmatched_close_paren_amended :
    (∀ (mem : SheetMemory) (stIn : EvState),
        evaluate stIn mem ["1", ")"] = ⟨JSNum.fin 1, ""⟩) ∧
      (∀ (mem : SheetMemory) (stIn : EvState) (f : List String) (st1 : EvState)
          (ds1 : List JSNum) (ops1 : List String) (st2 : EvState) (ds2 : List JSNum),
        2 ≤ f.length →
          scanLoop mem ⟨JSNum.fin 0, ""⟩ [] [] f = .ok st1 ds1 ops1 →
          drainLoop st1 ds1 ops1 = .ok (st2, ds2) →
          ds2.length ≠ 1 →
          (evaluate stIn mem f).errorMessage = ErrorMessages.invalidFormula) := by
  constructor
  · intro mem stIn
    with_unfolding_all rfl
  · intro mem stIn f st1 ds1 ops1 st2 ds2 h2 hs hd hlen
    have htp := tryPhase_final_exc hs hd hlen
    have he : evaluate stIn mem f =
        catchSalvage { st2 with errorMessage := ErrorMessages.invalidFormula } ds2 := by
      rw [evaluate_multi h2]
      simp only [htp]
    rw [he]
    simp only [catchSalvage]
    rcases ds2 with _ | ⟨v, _ | ⟨w, t⟩⟩
    · simp [ErrorMessages.invalidFormula]
    · simp at hlen
    · simp [ErrorMessages.invalidFormula]

/-- C4 witness: the amended claim at `["1",")"]` (silent success) and at
`["1",")","2"]` (operand count 2, so "invalid formula" is reported). -/
theorem c4_unmatched_close_paren_amended_witness :
    evaluate ⟨JSNum.fin 0, ""⟩ emptyMem ["1", ")"] = ⟨JSNum.fin 1, ""⟩ ∧
      (evaluate ⟨JSNum.fin 0, ""⟩ emptyMem ["1", ")", "2"]).errorMessage =
        ErrorMessages.invalidFormula := by
  refine ⟨c4_unmatched_close_paren_amended.1 emptyMem _, ?_⟩
  exact c4_unmatched_close_paren_amended.2 emptyMem ⟨JSNum.fin 0, ""⟩
    ["1", ")", "2"] ⟨JSNum.fin 0, ""⟩ [JSNum.fin 2, JSNum.fin 1] []
    ⟨JSNum.fin 0, ""⟩ [JSNum.fin 2, JSNum.fin 1]
    (by decide) (by with_unfolding_all decide) (by with_unfolding_all rfl) (by decide)

/-- C6: a valid cell whose stored error is non-empty and is not the
"empty formula" sentinel resolves to value 0 with that exact error string,
regardless of the cell's formula (the error check short-circuits before the
emptiness check). -/
theorem c6_stored_error_short_circuits (mem : SheetMemory) (token : String)
    (hvalid : mem.isValidCellLabel token = true)
    (herr : (mem.getCellByLabel token).getError ≠ "")
    (hsent : (mem.getCellByLabel token).getError ≠ ErrorMessages.emptyFormula) :
    getCellValue mem token = (JSNum.fin 0, (mem.getCellByLabel token).getError) := by
  simp only [getCellValue]
  rw [if_neg (by simp [hvalid])]
  rw [if_pos ⟨herr, hsent⟩]

/-- C6 witness: the stored error propagates verbatim even though the cell's
formula-token-sequence is empty. -/
theorem c6_stored_error_short_circuits_witness :
    getCellValue memCellError "A1" = (JSNum.fin 0, "divide by zero") := by
  exact c6_stored_error_short_circuits memCellError "A1" rfl (by decide) (by decide)

/-- C7: a valid cell whose error is empty or the "empty formula" sentinel
and whose formula-token-sequence is empty resolves to
`(0, "invalid cell")`; an invalid/unknown label likewise resolves to
`(0, "invalid cell")`. -/
theorem c7_empty_cell_invalid (mem : SheetMemory) (token : String) :
    (mem.isValidCellLabel token = true →
      ((mem.getCellByLabel token).getError = "" ∨
        (mem.getCellByLabel token).getError = ErrorMessages.emptyFormula) →
      (mem.getCellByLabel token).getFormula = [] →
      getCellValue mem token = (JSNum.fin 0, ErrorMessages.invalidCell)) ∧
    (mem.isValidCellLabel token = false →
      getCellValue mem token = (JSNum.fin 0, ErrorMessages.invalidCell)) := by
  constructor
  · intro hvalid herr hform
    simp only [getCellValue]
    rw [if_neg (by simp [hvalid])]
    rw [if_neg (by rcases herr with h | h <;> simp [h])]
    rw [if_pos (by simp [hform])]
  · intro hinvalid
    simp only [getCellValue]
    rw [if_pos (by simp [hinvalid])]

/-- C7 witness: an "empty formula" cell and an unknown label both resolve
to `(0, "invalid cell")`. -/
theorem c7_empty_cell_invalid_witness :
    getCellValue memEmptyCell "A1" = (JSNum.fin 0, ErrorMessages.invalidCell) ∧
      getCellValue emptyMem "B2" = (JSNum.fin 0, ErrorMessages.invalidCell) :=
  ⟨(c7_empty_cell_invalid memEmptyCell "A1").1 rfl (Or.inr (by decide)) rfl,
    (c7_empty_cell_invalid emptyMem "B2").2 rfl⟩

/-- C8: with the same formula and unchanged cell storage, a second
`evaluate` call yields exactly the same result/error state as the first:
each invocation starts by resetting result to 0 and error to "", and the
stacks are created fresh per call, so no prior instance state is
observable. -/
theorem c8_evaluate_idempotent (stIn : EvState) (mem : SheetMemory)
    (f : List String) :
    evaluate (evaluate stIn mem f) mem f = evaluate stIn mem f := rfl

/-- C9: operator precedence and parentheses are honored:
`("(" "1" "+" "2" ")" "*" "3")` evaluates to 9 and `("3" "*" "4" "+" "2")`
to 14, each with an empty error, for any cell storage and any prior
instance state. -/
theorem c9_precedence_parentheses (stIn : EvState) (mem : SheetMemory) :
    evaluate stIn mem ["(", "1", "+", "2", ")", "*", "3"] = ⟨JSNum.fin 9, ""⟩ ∧
      evaluate stIn mem ["3", "*", "4", "+", "2"] = ⟨JSNum.fin 14, ""⟩ := by
  constructor <;> with_unfolding_all rfl

/-- C10: in a multi-token formula, when a cell-reference token resolves with
a non-empty resolver error, `evaluate` returns immediately with that error
and result 0, however many operands were already pushed — the catch-path
salvage does not apply to this early return. -/
theorem c10_cell_error_early_return {mem : SheetMemory} {stIn st1 : EvState}
    {ds1 : List JSNum} {ops1 : List String} {pre post : List String} {tok : String}
    (hs : scanLoop mem ⟨JSNum.fin 0, ""⟩ [] [] pre = .ok st1 ds1 ops1)
    (hnum : isNumber tok = false)
    (href : isCellReference tok = true)
    (herr : (getCellValue mem tok).2 ≠ "")
    (h2 : 2 ≤ (pre ++ tok :: post).length) :
    evaluate stIn mem (pre ++ tok :: post) =
      ⟨JSNum.fin 0, (getCellValue mem tok).2⟩ := by
  have hscan : scanLoop mem ⟨JSNum.fin 0, ""⟩ [] [] (pre ++ tok :: post) =
      .ret { st1 with errorMessage := (getCellValue mem tok).2 } := by
    rw [scanLoop_append]
    simp only [hs]
    simp [scanLoop, hnum, href, herr]
  have htp : tryPhase mem ⟨JSNum.fin 0, ""⟩ (pre ++ tok :: post) =
      .ret { st1 with errorMessage := (getCellValue mem tok).2 } := by
    unfold tryPhase
    simp only [hscan]
  have hst1 : st1 = ⟨JSNum.fin 0, ""⟩ := scanLoop_ok_state hs
  rw [evaluate_multi h2]
  simp only [htp]
  rw [hst1]

/-- C10 witness: `["1","+","A1"]` with one operand already pushed returns
result 0 and the propagated "divide by zero" error, also discarding the
stale prior instance state. -/
theorem c10_cell_error_early_return_witness :
    evaluate ⟨JSNum.fin 5, "stale"⟩ memA1 ["1", "+", "A1"] =
      ⟨JSNum.fin 0, "divide by zero"⟩ := by
  exact @c10_cell_error_early_return memA1 ⟨JSNum.fin 5, "stale"⟩ ⟨JSNum.fin 0, ""⟩
    [JSNum.fin 1] ["+"] ["1", "+"] [] "A1"
    (by with_unfolding_all decide) (by decide) (by decide)
    (by with_unfolding_all decide) (by decide)

/-! ### C5: the decimal-literal grammar versus `isNumber` -/

lemma mem_takeWhile_pred {p : Char → Bool} {l : List Char} {c : Char}
    (hc : c ∈ l.takeWhile p) : p c = true := by
  induction l with
  | nil => simp [List.takeWhile] at hc
  | cons a t ih =>
    rw [List.takeWhile_cons] at hc
    by_cases hp : p a = true
    · rw [if_pos hp] at hc
      rcases List.mem_cons.mp hc with rfl | h
      · exact hp
      · exact ih h
    · rw [if_neg hp] at hc
      simp at hc

lemma takeWhile_all {p : Char → Bool} {l : List Char}
    (h : ∀ c ∈ l, p c = true) : l.takeWhile p = l := by
  induction l with
  | nil => rfl
  | cons a t ih =>
    rw [List.takeWhile_cons, if_pos (h a (List.mem_cons_self a t)),
      ih (fun c hc => h c (List.mem_cons_of_mem a hc))]

lemma dropWhile_all {p : Char → Bool} {l : List Char}
    (h : ∀ c ∈ l, p c = true) : l.dropWhile p = [] := by
  induction l with
  | nil => rfl
  | cons a t ih =>
    rw [List.dropWhile_cons, if_pos (h a (List.mem_cons_self a t))]
    exact ih (fun c hc => h c (List.mem_cons_of_mem a hc))

lemma takeWhile_cons_false {p : Char → Bool} {a : Char} {t : List Char}
    (h : p a = false) : (a :: t).takeWhile p = [] := by
  rw [List.takeWhile_cons, if_neg (by simp [h])]

lemma dropWhile_cons_false {p : Char → Bool} {a : Char} {t : List Char}
    (h : p a = false) : (a :: t).dropWhile p = a :: t := by
  rw [List.dropWhile_cons, if_neg (by simp [h])]

lemma takeWhile_append_all {p : Char → Bool} {l z : List Char}
    (h : ∀ c ∈ l, p c = true) : (l ++ z).takeWhile p = l ++ z.takeWhile p := by
  induction l with
  | nil => rfl
  | cons a t ih =>
    rw [List.cons_append, List.takeWhile_cons, if_pos (h a (List.mem_cons_self a t)),
      ih (fun c hc => h c (List.mem_cons_of_mem a hc))]
    rfl

lemma dropWhile_append_all {p : Char → Bool} {l z : List Char}
    (h : ∀ c ∈ l, p c = true) : (l ++ z).dropWhile p = z.dropWhile p := by
  induction l with
  | nil => rfl
  | cons a t ih =>
    rw [List.cons_append, List.dropWhile_cons, if_pos (h a (List.mem_cons_self a t))]
    exact ih (fun c hc => h c (List.mem_cons_of_mem a hc))

lemma dropWhile_all_false {p : Char → Bool} {l : List Char}
    (h : ∀ c ∈ l, p c = false) : l.dropWhile p = l := by
  cases l with
  | nil => rfl
  | cons a t => exact dropWhile_cons_false (h a (List.mem_cons_self a t))

lemma ws_not_digit {c : Char} (h : isJsWS c = true) : c.isDigit = false := by
  simp only [isJsWS, Bool.or_eq_true, decide_eq_true_eq] at h
  rcases h with ((((((((h | h) | h) | h) | h) | h) | h) | h) | h) | h <;> subst h <;> decide

lemma not_ws_of_digit {c : Char} (h : c.isDigit = true) : isJsWS c = false := by
  cases hw : isJsWS c
  · rfl
  · rw [ws_not_digit hw] at h
    simp at h

lemma jsTrim_id {l : List Char} (h : ∀ c ∈ l, isJsWS c = false) :
    jsTrim l = l := by
  unfold jsTrim
  rw [dropWhile_all_false h]
  rw [dropWhile_all_false (fun c hc => h c (List.mem_reverse.mp hc))]
  exact List.reverse_reverse l

lemma cons_ne_infinity {c : Char} {t : List Char} (h : c.isDigit = true) :
    (c :: t) ≠ "Infinity".toList := by
  intro he
  have h0 : "Infinity".toList = 'I' :: "nfinity".toList := rfl
  rw [h0] at he
  injection he with h1 _
  subst h1
  exact absurd h (by decide)

lemma decimalVal_int {ip : List Char} (hip : ip ≠ [])
    (hd : ∀ c ∈ ip, c.isDigit = true) :
    decimalVal ip = .fin (natValQ ip) := by
  simp only [decimalVal, takeWhile_all hd, dropWhile_all hd]
  rw [if_neg hip]
  rfl

lemma decimalVal_frac {ip t : List Char} (hip : ip ≠ [])
    (hd : ∀ c ∈ ip, c.isDigit = true) (ht : ∀ c ∈ t, c.isDigit = true) :
    decimalVal (ip ++ '.' :: t) = .fin (decValue ip t) := by
  have h1 : (ip ++ '.' :: t).takeWhile Char.isDigit = ip := by
    rw [takeWhile_append_all hd, takeWhile_cons_false (by decide)]
    exact List.append_nil ip
  have h2 : (ip ++ '.' :: t).dropWhile Char.isDigit = '.' :: t := by
    rw [dropWhile_append_all hd]
    exact dropWhile_cons_false (by decide)
  simp only [decimalVal, h1, h2, takeWhile_all ht, dropWhile_all ht]
  rw [if_neg (fun hc => hip hc.1)]
  rfl

lemma unsignedDec_int {ip : List Char} (hip : ip ≠ [])
    (hd : ∀ c ∈ ip, c.isDigit = true) :
    unsignedDec ip = .fin (natValQ ip) := by
  unfold unsignedDec
  rcases ip with _ | ⟨c, t⟩
  · exact absurd rfl hip
  · rw [if_neg (cons_ne_infinity (hd c (List.mem_cons_self c t)))]
    exact decimalVal_int hip hd

lemma unsignedDec_frac {ip t : List Char} (hip : ip ≠ [])
    (hd : ∀ c ∈ ip, c.isDigit = true) (ht : ∀ c ∈ t, c.isDigit = true) :
    unsignedDec (ip ++ '.' :: t) = .fin (decValue ip t) := by
  unfold unsignedDec
  rcases ip with _ | ⟨c, ip1⟩
  · exact absurd rfl hip
  · rw [if_neg (by
      rw [List.cons_append]
      exact cons_ne_infinity (hd c (List.mem_cons_self c ip1)))]
    exact decimalVal_frac hip hd ht

lemma jsNeg_ne_nan {v : JSNum} (h : v ≠ .nan) : jsNeg v ≠ .nan := by
  cases v with
  | nan => exact absurd rfl h
  | inf => simp [jsNeg]
  | neginf => simp [jsNeg]
  | fin q => simp [jsNeg]

lemma signedDec_ne_nan {cs ip r : List Char}
    (hstrip : stripSign cs = ip ++ r)
    (hip : ip ≠ []) (hd : ∀ c ∈ ip, c.isDigit = true)
    (hr : r = [] ∨ ∃ t, (∀ c ∈ t, c.isDigit = true) ∧ r = '.' :: t) :
    signedDec cs ≠ JSNum.nan := by
  have hbody : unsignedDec (ip ++ r) ≠ JSNum.nan := by
    rcases hr with rfl | ⟨t, ht, rfl⟩
    · rw [List.append_nil, unsignedDec_int hip hd]
      simp
    · rw [unsignedDec_frac hip hd ht]
      simp
  rcases cs with _ | ⟨c, t0⟩
  · simp only [stripSign] at hstrip
    exact absurd (List.append_eq_nil.mp hstrip.symm).1 hip
  · simp only [signedDec]
    simp only [stripSign] at hstrip
    by_cases h1 : c = '+' ∨ c = '-'
    · rw [if_pos h1] at hstrip
      rcases h1 with rfl | rfl
      · rw [if_pos rfl, hstrip]
        exact hbody
      · rw [if_neg (by decide), if_pos rfl, hstrip]
        exact jsNeg_ne_nan hbody
    · rw [if_neg h1] at hstrip
      rw [if_neg (fun hc => h1 (Or.inl hc)), if_neg (fun hc => h1 (Or.inr hc)), hstrip]
      exact hbody

lemma digit_not_marker {x : Char} (hx : x.isDigit = true ∨ x = '.') :
    ¬(x = 'x' ∨ x = 'X') ∧ ¬(x = 'o' ∨ x = 'O') ∧ ¬(x = 'b' ∨ x = 'B') := by
  rcases hx with hx | rfl
  · refine ⟨?_, ?_, ?_⟩ <;> rintro (rfl | rfl) <;> exact absurd hx (by decide)
  · refine ⟨?_, ?_, ?_⟩ <;> rintro (h | h) <;> simp at h

lemma strNum_ne_nan {cs ip r : List Char}
    (hstrip : stripSign cs = ip ++ r)
    (hip : ip ≠ []) (hd : ∀ c ∈ ip, c.isDigit = true)
    (hr : r = [] ∨ ∃ t, (∀ c ∈ t, c.isDigit = true) ∧ r = '.' :: t) :
    strNum cs ≠ JSNum.nan := by
  rcases hcs : cs with _ | ⟨c0, _ | ⟨x, rest⟩⟩
  · simp [strNum]
  · exact signedDec_ne_nan (hcs ▸ hstrip) hip hd hr
  · subst hcs
    simp only [strNum]
    by_cases h0 : c0 = '0'
    · rw [if_pos h0]
      subst h0
      have hstrip2 : '0' :: x :: rest = ip ++ r := by
        simpa only [stripSign, if_neg (by decide : ¬('0' = '+' ∨ '0' = '-'))] using hstrip
      have hx : x.isDigit = true ∨ x = '.' := by
        rcases ip with _ | ⟨i0, ip1⟩
        · exact absurd rfl hip
        · rw [List.cons_append] at hstrip2
          injection hstrip2 with he1 he2
          rcases ip1 with _ | ⟨i1, ip2⟩
          · rcases hr with rfl | ⟨t, ht, rfl⟩
            · simp at he2
            · rw [List.nil_append] at he2
              injection he2 with he3 _
              exact Or.inr he3
          · rw [List.cons_append] at he2
            injection he2 with he3 _
            exact Or.inl (he3 ▸ hd i1 (List.mem_cons_of_mem i0 (List.mem_cons_self i1 ip2)))
      obtain ⟨hm1, hm2, hm3⟩ := digit_not_marker hx
      rw [if_neg hm1, if_neg hm2, if_neg hm3]
      exact signedDec_ne_nan hstrip hip hd hr
    · rw [if_neg h0]
      exact signedDec_ne_nan hstrip hip hd hr

lemma specNumericLiteral_isNumber {s : String}
    (h : specNumericLiteral s = true) : isNumber s = true := by
  simp only [specNumericLiteral, Bool.and_eq_true, Bool.or_eq_true, decide_eq_true_eq,
    ne_eq] at h
  obtain ⟨hip, hrest⟩ := h
  have hsplit : stripSign s.toList =
      (stripSign s.toList).takeWhile Char.isDigit ++
        (stripSign s.toList).dropWhile Char.isDigit :=
    (List.takeWhile_append_dropWhile _ _).symm
  have hd : ∀ c ∈ (stripSign s.toList).takeWhile Char.isDigit, c.isDigit = true :=
    fun _ hc => mem_takeWhile_pred hc
  have hr : (stripSign s.toList).dropWhile Char.isDigit = [] ∨
      ∃ t, (∀ c ∈ t, c.isDigit = true) ∧
        (stripSign s.toList).dropWhile Char.isDigit = '.' :: t := by
    rcases hrest with h2 | ⟨hhead, htail⟩
    · exact Or.inl h2
    · right
      rcases hdw : (stripSign s.toList).dropWhile Char.isDigit with _ | ⟨rh, rt⟩
      · rw [hdw] at hhead
        simp at hhead
      · rw [hdw] at hhead htail
        simp only [List.head?_cons, Option.some.injEq] at hhead
        subst hhead
        refine ⟨rt, fun c hc => ?_, rfl⟩
        simpa using (List.all_eq_true.mp (by simpa using htail) c hc)
  have hmem : ∀ c, c ∈ (stripSign s.toList).takeWhile Char.isDigit ++
      (stripSign s.toList).dropWhile Char.isDigit → isJsWS c = false := by
    intro c hc
    rcases List.mem_append.mp hc with hci | hcr
    · exact not_ws_of_digit (hd c hci)
    · rcases hr with hnil | ⟨t, ht, hcons⟩
      · rw [hnil] at hcr
        simp at hcr
      · rw [hcons] at hcr
        rcases List.mem_cons.mp hcr with rfl | hct
        · decide
        · exact not_ws_of_digit (ht c hct)
  have hmem2 : ∀ c, c ∈ stripSign s.toList → isJsWS c = false := by
    intro c hc
    rw [hsplit] at hc
    exact hmem c hc
  have hnws : ∀ c ∈ s.toList, isJsWS c = false := by
    intro c hc
    cases hs0 : s.toList with
    | nil =>
      rw [hs0] at hc
      simp at hc
    | cons c0 t =>
      rw [hs0] at hc
      rcases List.mem_cons.mp hc with rfl | hct
      · by_cases hsign : c = '+' ∨ c = '-'
        · rcases hsign with rfl | rfl <;> decide
        · apply hmem2
          rw [hs0]
          simp only [stripSign, if_neg hsign]
          exact List.mem_cons_self c t
      · apply hmem2
        rw [hs0]
        simp only [stripSign]
        split
        · exact hct
        · exact List.mem_cons_of_mem c0 hct
  have hne : strNum s.toList ≠ JSNum.nan :=
    strNum_ne_nan hsplit hip hd hr
  have hjs : jsStrToNum s = strNum s.toList := by
    unfold jsStrToNum
    rw [jsTrim_id hnws]
  unfold isNumber
  rw [hjs]
  cases hv : strNum s.toList with
  | nan => exact absurd hv hne
  | inf => rfl
  | neginf => rfl
  | fin q => rfl

/-- C5 counterexample: the claim says `isNumber` rejects every non-numeric
text including the empty string; in fact `isNumber("")` is true (JS
`Number("")` is `0`, which is not NaN), while the empty string is not a
decimal numeric literal. -/
theorem c5_isNumber_counterexample :
    isNumber "" = true ∧ specNumericLiteral "" = false := by
  constructor <;> with_unfolding_all decide

/-- C5 (amended): `isNumber(token)` tests `!isNaN(Number(token))`.  It
accepts every finite decimal numeric literal (optional sign, digits,
optional fractional part) and rejects non-numeric text such as "abc" or
"+", but it is not exactly that grammar: it also returns true for the empty
string, for exponent notation, and for "Infinity". -/
theorem c5_isNumber_amended :
    (∀ s : String, specNumericLiteral s = true → isNumber s = true) ∧
      isNumber "" = true ∧ isNumber "1e3" = true ∧ isNumber "Infinity" = true ∧
      isNumber "abc" = false ∧ isNumber "+" = false ∧ isNumber "." = false := by
  refine ⟨fun s h => specNumericLiteral_isNumber h, ?_, ?_, ?_, ?_, ?_, ?_⟩ <;>
    with_unfolding_all decide

/-- C5 witness: the amended claim's universal part applied to the concrete
literal "-12.5". -/
theorem c5_isNumber_amended_witness :
    specNumericLiteral "-12.5" = true ∧ isNumber "-12.5" = true := by
  refine ⟨by with_unfolding_all decide, ?_⟩
  exact c5_isNumber_amended.1 "-12.5" (by with_unfolding_all decide)
